import Mathlib

/-!
Shallow embedding of the LTLA/godbolt-tests repository
(src/devirtualize.cpp, src/devirtualize_class.cpp, src/nd_offset.cpp),
together with theorems settling the specification's claims about it.

C++ `int` payloads are modelled as `Int` (none of the claimed payload
arithmetic depends on 32-bit wraparound), `std::size_t` arithmetic is
modelled as `Nat` arithmetic taken modulo `2 ^ 64`, `std::unique_ptr<T>`
ownership is modelled by plain values of the embedded `T`, and a virtual
call through an abstract base is modelled by pattern matching on a sum
type that enumerates the concrete subclasses present in the translation
unit (for the closed Core hierarchy), or by a record of closures (for the
open Wrapper hierarchy, whose concrete subclasses are template
instantiations).
-/

namespace Devirt

/-! Embedding of `src/devirtualize.cpp`. -/

/-- Embeds `AChild` (payload set at construction). -/
structure AChild where
  payload : Int

/-- Embeds `AChild::get()`: `return payload;`. -/
def AChild.get (self : AChild) : Int :=
  self.payload

/-- Embeds `BChild` (payload set at construction). -/
structure BChild where
  payload : Int

/-- Embeds `BChild::get()`: `return payload + 20;`. -/
def BChild.get (self : BChild) : Int :=
  self.payload + 20

/-- Embeds the abstract `BaseChild`: its concrete subclasses in this
translation unit are `AChild` and `BChild`. A `std::unique_ptr<BaseChild>`
holding a concrete child is one of these constructors. -/
inductive BaseChild where
  | a (child : AChild)
  | b (child : BChild)

/-- Virtual dispatch of `BaseChild::get()` to the dynamic type. -/
def BaseChild.get : BaseChild → Int
  | .a child => child.get
  | .b child => child.get

/-- Embeds `AParent` (payload set at construction). -/
structure AParent where
  my_payload : Int

/-- Embeds `AParent::create()`: `return std::make_unique<AChild>(my_payload);`. -/
def AParent.create (self : AParent) : BaseChild :=
  .a ⟨self.my_payload⟩

/-- Embeds `BParent` (payload set at construction). -/
structure BParent where
  my_payload : Int

/-- Embeds `BParent::create()`. The source body is
`return std::make_unique<AChild>(my_payload);` — it constructs an
`AChild`, not a `BChild`. -/
def BParent.create (self : BParent) : BaseChild :=
  .a ⟨self.my_payload⟩

/-- Embeds `int foo(const AParent& ap)`: `auto value = ap.create(); return value->get();`. -/
def foo (ap : AParent) : Int :=
  (ap.create).get

/-- Stateful embedding of the non-`const` `AChild::get()`: the body only
reads `payload`, so the receiver is returned unchanged alongside the result. -/
def AChild.getSt (self : AChild) : Int × AChild :=
  (self.payload, self)

/-- Stateful embedding of the non-`const` `BChild::get()`. -/
def BChild.getSt (self : BChild) : Int × BChild :=
  (self.payload + 20, self)

end Devirt

namespace DevirtClass1

/-! Embedding of the first half of `src/devirtualize_class.cpp`
(the variant without `create_exact()`). -/

/-- Embeds `ACoreChild`. -/
structure ACoreChild where
  payload : Int

/-- Embeds `ACoreChild::get()`: `return payload;`. -/
def ACoreChild.get (self : ACoreChild) : Int :=
  self.payload

/-- Embeds `BCoreChild`. -/
structure BCoreChild where
  payload : Int

/-- Embeds `BCoreChild::get()`: `return payload + 20;`. -/
def BCoreChild.get (self : BCoreChild) : Int :=
  self.payload + 20

/-- Embeds the abstract `BaseCoreChild`; its concrete subclasses in this
translation unit are `ACoreChild` and `BCoreChild`. -/
inductive BaseCoreChild where
  | a (child : ACoreChild)
  | b (child : BCoreChild)

/-- Virtual dispatch of `BaseCoreChild::get()` to the dynamic type. -/
def BaseCoreChild.get : BaseCoreChild → Int
  | .a child => child.get
  | .b child => child.get

/-- Embeds `ACoreParent`. -/
structure ACoreParent where
  my_payload : Int

/-- Embeds `ACoreParent::create()`: `return std::make_unique<ACoreChild>(my_payload);`. -/
def ACoreParent.create (self : ACoreParent) : BaseCoreChild :=
  .a ⟨self.my_payload⟩

/-- Embeds `BCoreParent`. -/
structure BCoreParent where
  my_payload : Int

/-- Embeds `BCoreParent::create()`: `return std::make_unique<BCoreChild>(my_payload);`. -/
def BCoreParent.create (self : BCoreParent) : BaseCoreChild :=
  .b ⟨self.my_payload⟩

/-- Embeds the abstract `BaseCoreParent`; its concrete subclasses in this
translation unit are `ACoreParent` and `BCoreParent`. -/
inductive BaseCoreParent where
  | a (parent : ACoreParent)
  | b (parent : BCoreParent)

/-- Virtual dispatch of `BaseCoreParent::create()` to the dynamic type. -/
def BaseCoreParent.create : BaseCoreParent → BaseCoreChild
  | .a parent => parent.create
  | .b parent => parent.create

/-- Dictionary for the template parameter `Core_`: how
`core_parent.create()` resolves for a given static type `Core`.
Template instantiation is modelled by passing this dictionary. -/
structure CoreDict (Core : Type) where
  create : Core → BaseCoreChild

/-- The `Core_ = ACoreParent` instantiation (the dynamic type equals the
final static type, so the call resolves to `ACoreParent::create`). -/
def aCoreDict : CoreDict ACoreParent :=
  ⟨ACoreParent.create⟩

/-- The `Core_ = BCoreParent` instantiation. -/
def bCoreDict : CoreDict BCoreParent :=
  ⟨BCoreParent.create⟩

/-- The `Core_ = BaseCoreParent` instantiation (a genuinely virtual call). -/
def baseCoreDict : CoreDict BaseCoreParent :=
  ⟨BaseCoreParent.create⟩

/-- Embeds the abstract `BaseWrapperChild` as a record of its virtual
methods (the hierarchy is open: each template instantiation of
`ActualWrapperChild` is a concrete subclass). -/
structure BaseWrapperChild where
  wrapped_get : Unit → Int

/-- Embeds the abstract `BaseWrapperParent` as a record of its virtual
methods. -/
structure BaseWrapperParent where
  initialise : Unit → BaseWrapperChild

/-- Embeds `ActualWrapperChild<Core_>`: the member
`std::unique_ptr<BaseCoreChild> my_core_child`. -/
structure ActualWrapperChild (Core : Type) where
  my_core_child : BaseCoreChild

/-- Embeds the `ActualWrapperChild<Core_>` constructor:
`my_core_child(core_parent.create())`. -/
def ActualWrapperChild.ctor (d : CoreDict Core) (core_parent : Core) :
    ActualWrapperChild Core :=
  ⟨d.create core_parent⟩

/-- Embeds `ActualWrapperChild<Core_>::wrapped_get()`:
`return my_core_child->get();`. -/
def ActualWrapperChild.wrapped_get (self : ActualWrapperChild Core) : Int :=
  self.my_core_child.get

/-- Upcast of `ActualWrapperChild<Core_>` to `BaseWrapperChild`. -/
def ActualWrapperChild.toBase (self : ActualWrapperChild Core) : BaseWrapperChild :=
  ⟨fun _ => self.wrapped_get⟩

/-- Embeds `ActualWrapperParent<Core_>`: the member
`std::shared_ptr<Core_> my_core_parent`. -/
structure ActualWrapperParent (Core : Type) where
  my_core_parent : Core

/-- Embeds `ActualWrapperParent<Core_>::initialize()`:
`return std::make_unique<ActualWrapperChild<Core_>>(*my_core_parent);`
(renamed because `initialize` is reserved in Lean). -/
def ActualWrapperParent.initialise (d : CoreDict Core)
    (self : ActualWrapperParent Core) : ActualWrapperChild Core :=
  ActualWrapperChild.ctor d self.my_core_parent

/-- Upcast of `ActualWrapperParent<Core_>` to `BaseWrapperParent`. -/
def ActualWrapperParent.toBase (d : CoreDict Core)
    (self : ActualWrapperParent Core) : BaseWrapperParent :=
  ⟨fun _ => (self.initialise d).toBase⟩

/-- Embeds `int foo(const BaseWrapperParent& wparent)`:
`auto wchild = wparent.initialize(); return wchild->wrapped_get();`. -/
def foo (wparent : BaseWrapperParent) : Int :=
  ((wparent.initialise ()).wrapped_get ())

/-- Embeds `int bar(std::shared_ptr<BaseCoreParent> base,
std::shared_ptr<ACoreParent> abase, std::shared_ptr<BCoreParent> bbase)`. -/
def bar (base : BaseCoreParent) (abase : ACoreParent) (bbase : BCoreParent) : Int :=
  let parent : ActualWrapperParent BaseCoreParent := ⟨base⟩
  let aparent : ActualWrapperParent ACoreParent := ⟨abase⟩
  let bparent : ActualWrapperParent BCoreParent := ⟨bbase⟩
  foo (parent.toBase baseCoreDict) + foo (aparent.toBase aCoreDict) +
    foo (bparent.toBase bCoreDict)

/-- Stateful embedding of the non-`const` `ACoreChild::get()`. -/
def ACoreChild.getSt (self : ACoreChild) : Int × ACoreChild :=
  (self.payload, self)

/-- Stateful embedding of the non-`const` `BCoreChild::get()`. -/
def BCoreChild.getSt (self : BCoreChild) : Int × BCoreChild :=
  (self.payload + 20, self)

end DevirtClass1

namespace DevirtClass2

/-! Embedding of the second half of `src/devirtualize_class.cpp`
(the "forced devirtualization" variant, which adds `create_exact()`). -/

/-- Embeds `ACoreChild`. -/
structure ACoreChild where
  payload : Int

/-- Embeds `ACoreChild::get()`: `return payload;`. -/
def ACoreChild.get (self : ACoreChild) : Int :=
  self.payload

/-- Embeds `BCoreChild`. -/
structure BCoreChild where
  payload : Int

/-- Embeds `BCoreChild::get()`: `return payload + 20;`. -/
def BCoreChild.get (self : BCoreChild) : Int :=
  self.payload + 20

/-- Embeds the abstract `BaseCoreChild`; its concrete subclasses in this
translation unit are `ACoreChild` and `BCoreChild`. -/
inductive BaseCoreChild where
  | a (child : ACoreChild)
  | b (child : BCoreChild)

/-- Virtual dispatch of `BaseCoreChild::get()` to the dynamic type. -/
def BaseCoreChild.get : BaseCoreChild → Int
  | .a child => child.get
  | .b child => child.get

/-- Embeds `ACoreParent`. -/
structure ACoreParent where
  my_payload : Int

/-- Embeds the non-virtual `ACoreParent::create_exact()`:
`return std::make_unique<ACoreChild>(my_payload);` — note the concrete
return type `std::unique_ptr<ACoreChild>`. -/
def ACoreParent.create_exact (self : ACoreParent) : ACoreChild :=
  ⟨self.my_payload⟩

/-- Embeds `ACoreParent::create()`: `return create_exact();` (the
`unique_ptr<ACoreChild>` result is upcast to `unique_ptr<BaseCoreChild>`). -/
def ACoreParent.create (self : ACoreParent) : BaseCoreChild :=
  .a self.create_exact

/-- Embeds `BCoreParent`. -/
structure BCoreParent where
  my_payload : Int

/-- Embeds the non-virtual `BCoreParent::create_exact()`:
`return std::make_unique<BCoreChild>(my_payload);`. -/
def BCoreParent.create_exact (self : BCoreParent) : BCoreChild :=
  ⟨self.my_payload⟩

/-- Embeds `BCoreParent::create()`: `return create_exact();`. -/
def BCoreParent.create (self : BCoreParent) : BaseCoreChild :=
  .b self.create_exact

/-- Embeds the abstract `BaseCoreParent`; its concrete subclasses in this
translation unit are `ACoreParent` and `BCoreParent`. -/
inductive BaseCoreParent where
  | a (parent : ACoreParent)
  | b (parent : BCoreParent)

/-- Virtual dispatch of `BaseCoreParent::create()` to the dynamic type. -/
def BaseCoreParent.create : BaseCoreParent → BaseCoreChild
  | .a parent => parent.create
  | .b parent => parent.create

/-- Embeds the non-virtual `BaseCoreParent::create_exact()`:
`{ return create(); }` — a virtual call on the same receiver. -/
def BaseCoreParent.create_exact (self : BaseCoreParent) : BaseCoreChild :=
  self.create

/-- Dictionary for the template parameter `Core_` in this variant: the
static type `Core` determines both the stored child type
`decltype(std::declval<Core_>().create_exact())` and how the calls
`core_parent.create_exact()` and `my_core_child->get()` resolve. -/
structure CoreExactDict (Core Child : Type) where
  create_exact : Core → Child
  childGet : Child → Int

/-- The `Core_ = ACoreParent` instantiation: the stored child type is the
concrete `ACoreChild`, so `my_core_child->get()` resolves to
`ACoreChild::get` (the class is `final`). -/
def aExactDict : CoreExactDict ACoreParent ACoreChild :=
  ⟨ACoreParent.create_exact, ACoreChild.get⟩

/-- The `Core_ = BCoreParent` instantiation. -/
def bExactDict : CoreExactDict BCoreParent BCoreChild :=
  ⟨BCoreParent.create_exact, BCoreChild.get⟩

/-- The `Core_ = BaseCoreParent` instantiation: the stored child type is
the abstract `BaseCoreChild`, so `get()` stays a virtual call. -/
def baseExactDict : CoreExactDict BaseCoreParent BaseCoreChild :=
  ⟨BaseCoreParent.create_exact, BaseCoreChild.get⟩

/-- Embeds the abstract `BaseWrapperChild` as a record of its virtual
methods. -/
structure BaseWrapperChild where
  wrapped_get : Unit → Int

/-- Embeds the abstract `BaseWrapperParent` as a record of its virtual
methods. -/
structure BaseWrapperParent where
  initialise : Unit → BaseWrapperChild

/-- Embeds `ActualWrapperChild<Core_>` of this variant: the member type is
`decltype(std::declval<Core_>().create_exact()) my_core_child`, i.e. the
concrete child type of `Core_`. -/
structure ActualWrapperChild (Core Child : Type) where
  my_core_child : Child

/-- Embeds the `ActualWrapperChild<Core_>` constructor of this variant:
`my_core_child(core_parent.create_exact())`. -/
def ActualWrapperChild.ctor (d : CoreExactDict Core Child) (core_parent : Core) :
    ActualWrapperChild Core Child :=
  ⟨d.create_exact core_parent⟩

/-- Embeds `ActualWrapperChild<Core_>::wrapped_get()`:
`return my_core_child->get();`, resolved at the stored child's type. -/
def ActualWrapperChild.wrapped_get (d : CoreExactDict Core Child)
    (self : ActualWrapperChild Core Child) : Int :=
  d.childGet self.my_core_child

/-- Upcast of `ActualWrapperChild<Core_>` to `BaseWrapperChild`. -/
def ActualWrapperChild.toBase (d : CoreExactDict Core Child)
    (self : ActualWrapperChild Core Child) : BaseWrapperChild :=
  ⟨fun _ => self.wrapped_get d⟩

/-- Embeds `ActualWrapperParent<Core_>` of this variant. Unlike the first
variant, whose member is `std::shared_ptr<Core_>`, this variant's source
declares `std::shared_ptr<BaseCoreParent> my_core_parent;` for every
`Core_`, so the stored parent is base-typed. -/
structure ActualWrapperParent (Core : Type) where
  my_core_parent : BaseCoreParent

/-- Embeds `ActualWrapperParent<Core_>::initialize()` of this variant:
`return std::make_unique<ActualWrapperChild<Core_>>(*my_core_parent);`
(renamed because `initialize` is reserved in Lean). The dereferenced
member `*my_core_parent` is a `BaseCoreParent&`, while
`ActualWrapperChild<Core_>`'s constructor requires a `const Core_&` and
no base-to-derived reference conversion exists, so the call is
well-formed C++ only for `Core_ = BaseCoreParent` — the sole
instantiation embedded here. (`bar` in the source nonetheless
instantiates `Core_ = ACoreParent` and `Core_ = BCoreParent`, which is
ill-formed, so this variant's `bar` has no embedding.) -/
def ActualWrapperParent.initialise (self : ActualWrapperParent BaseCoreParent) :
    ActualWrapperChild BaseCoreParent BaseCoreChild :=
  ActualWrapperChild.ctor baseExactDict self.my_core_parent

/-- Upcast of `ActualWrapperParent<BaseCoreParent>` to `BaseWrapperParent`. -/
def ActualWrapperParent.toBase (self : ActualWrapperParent BaseCoreParent) :
    BaseWrapperParent :=
  ⟨fun _ => (self.initialise).toBase baseExactDict⟩

/-- Embeds `int foo(const BaseWrapperParent& wparent)` of this variant. -/
def foo (wparent : BaseWrapperParent) : Int :=
  ((wparent.initialise ()).wrapped_get ())

/-- Stateful embedding of the non-`const` `ACoreChild::get()`. -/
def ACoreChild.getSt (self : ACoreChild) : Int × ACoreChild :=
  (self.payload, self)

/-- Stateful embedding of the non-`const` `BCoreChild::get()`. -/
def BCoreChild.getSt (self : BCoreChild) : Int × BCoreChild :=
  (self.payload + 20, self)

end DevirtClass2

namespace NdOffset

/-! Embedding of `src/nd_offset.cpp`. The variadic argument pack
`x2, e2, x3, e3, ..., xn` after the first coordinate/extent pair is
modelled as the coordinate `x2` followed by a list of further
`(extent, coordinate)` pairs. Two instantiations of the `Size_` template
parameter are embedded: an unbounded unsigned integer (`Nat`, for the
arithmetic identities) and a `w`-bit unsigned machine integer
(`Nat` arithmetic reduced modulo `2 ^ w`; `std::size_t` is `w = 64`,
the instantiation used by `sum`). -/

/-- Embeds `nd_offset_internal<Size_>(extent, pos, more_args...)` at an
unbounded unsigned `Size_`. Base case: `return extent * pos;`.
Recursive case: `return (pos + nd_offset_internal<Size_>(more_args...)) * extent;`. -/
def nd_offset_internal : Nat → Nat → List (Nat × Nat) → Nat
  | extent, pos, [] => extent * pos
  | extent, pos, (e2, x2) :: more_args => (pos + nd_offset_internal e2 x2 more_args) * extent

/-- Embeds `nd_offset<Size_>(x1, extent1, x2, remaining...)` at an
unbounded unsigned `Size_`:
`return static_cast<Size_>(x1) + nd_offset_internal<Size_>(extent1, x2, remaining...);`. -/
def nd_offset (x1 extent1 x2 : Nat) (remaining : List (Nat × Nat)) : Nat :=
  x1 + nd_offset_internal extent1 x2 remaining

/-- C++ conversion of a (possibly signed) integer value to a `w`-bit
unsigned integer type: the value modulo `2 ^ w`. -/
def toUnsigned (w : Nat) (i : Int) : Nat :=
  (i % ((2 : Int) ^ w)).toNat

/-- Embeds `nd_offset_internal<Size_>(extent, pos, more_args...)` where
`Size_` is the `w`-bit unsigned integer type: each argument is converted
to `Size_` when it binds to a `Size_` parameter, and `+` and `*` on
`Size_` reduce modulo `2 ^ w`. -/
def nd_offset_internal_w (w : Nat) : Int → Int → List (Int × Int) → Nat
  | extent, pos, [] => toUnsigned w extent * toUnsigned w pos % 2 ^ w
  | extent, pos, (e2, x2) :: more_args =>
      (toUnsigned w pos + nd_offset_internal_w w e2 x2 more_args) * toUnsigned w extent % 2 ^ w

/-- Embeds `nd_offset<Size_>(x1, extent1, x2, remaining...)` where `Size_`
is the `w`-bit unsigned integer type (`nd_offset<std::size_t>` is `w = 64`). -/
def nd_offset_w (w : Nat) (x1 extent1 x2 : Int) (remaining : List (Int × Int)) : Nat :=
  (toUnsigned w x1 + nd_offset_internal_w w extent1 x2 remaining) % 2 ^ w

/-- Embeds the `for (int r = r0; r < NR; ++r)` loop body of `sum`:
each iteration reads `mat[nd_offset<std::size_t>(c, NC, r)]` (out-of-range
indexing, undefined behaviour in C++, is `none`) and accumulates it into
`val`. The `fuel` argument is the structural bound on the remaining
iteration count; `sum` supplies the exact count `(NR - r0).toNat`, for
which the `fuel = 0, r < NR` branch is unreachable. -/
def sumLoop {α : Type} [Add α] (mat : List α) (NR NC c : Int) :
    Nat → α → Int → Option α
  | 0, val, r => if r < NR then none else some val
  | fuel + 1, val, r =>
      if r < NR then
        match mat[nd_offset_w 64 c NC r []]? with
        | some elmt => sumLoop mat NR NC c fuel (val + elmt) (r + 1)
        | none => none
      else
        some val

/-- Embeds `double sum(const double* mat, int NR, int NC, int r0, int c)`.
The element type of `mat` is kept abstract (an arbitrary type with `0`
and `+`, standing for `double` with IEEE addition); the matrix is a list
whose indexing is total via `Option`. -/
def sum {α : Type} [Add α] [Zero α] (mat : List α) (NR NC r0 c : Int) : Option α :=
  sumLoop mat NR NC c (NR - r0).toNat 0 r0

end NdOffset

namespace SpecSide

/-! Reference formulations written from the specification's words, to be
compared with the embeddings above. -/

/-- The spec's Horner form for the tail of the offset computation:
`hornerSpec x [(e2, y2), ..., (en, yn)] = x + e2 * (y2 + e3 * (... + en * yn))`. -/
def hornerSpec : Nat → List (Nat × Nat) → Nat
  | x, [] => x
  | x, (e, y) :: rest => x + e * hornerSpec y rest

/-- The spec's description of `nd_offset` at a `W`-valued unsigned type
(`W = 2 ^ w`), with every argument already converted to the unsigned type:
the same fold with each `+` and `*` reduced modulo `W`.
(`nd_offset_internal` shape, modulo `W`.) -/
def nd_offset_internal_u (W : Nat) : Nat → Nat → List (Nat × Nat) → Nat
  | extent, pos, [] => extent * pos % W
  | extent, pos, (e2, x2) :: more_args =>
      (pos + nd_offset_internal_u W e2 x2 more_args) * extent % W

/-- The spec's description of `nd_offset` at a `W`-valued unsigned type,
arguments pre-converted. -/
def nd_offset_u (W : Nat) (x1 extent1 x2 : Nat) (remaining : List (Nat × Nat)) : Nat :=
  (x1 + nd_offset_internal_u W extent1 x2 remaining) % W

/-- The claim's mathematical column sum: fold left to right starting from
`0` over the listed rows `r`, adding `mat[c + r * NC]` at each step. -/
def colSum {α : Type} [Add α] [Zero α] (mat : List α) (NC c : Nat) (rows : List Nat) : α :=
  rows.foldl (fun acc r => acc + mat.getD (c + r * NC) 0) 0

end SpecSide

section Claims

open NdOffset SpecSide

/-- The internal fold of `nd_offset` is `extent` times the spec's Horner
form of the remaining arguments. -/
lemma nd_offset_internal_horner (extent pos : Nat) (rest : List (Nat × Nat)) :
    nd_offset_internal extent pos rest = extent * hornerSpec pos rest := by
  induction rest generalizing extent pos with
  | nil => simp [nd_offset_internal, hornerSpec]
  | cons head rest ih =>
      obtain ⟨e2, x2⟩ := head
      simp only [nd_offset_internal, hornerSpec, ih]
      ring

/-- C1: for every Parent variant constructed with payload `p`, the child
produced by `create()` (and `create_exact()` where defined) reports `p`
for A variants and `p + 20` for B variants. The code diverges from this
claim at `BParent` in `devirtualize.cpp`: its `create()` constructs an
`AChild`, so the produced child's `get()` returns the payload unchanged.
This theorem evaluates the embedding at the failing input `p = 5`: the
result is `5`, not the claimed `25`. -/
theorem bparent_create_builds_achild :
    (Devirt.BParent.mk 5).create.get = 5 ∧ (Devirt.BParent.mk 5).create.get ≠ 25 := by
  constructor
  · rfl
  · decide

/-- C2: a variant-A child constructed with payload `p` returns exactly
`p` from `get()`, and a variant-B child returns exactly `p + 20`, in all
three translation units; in particular payload `5` yields `5` on variant
A and `25` on variant B. -/
theorem child_get_matches_variant_offset :
    (∀ p : Int, (Devirt.AChild.mk p).get = p) ∧
    (∀ p : Int, (Devirt.BChild.mk p).get = p + 20) ∧
    (∀ p : Int, (DevirtClass1.ACoreChild.mk p).get = p) ∧
    (∀ p : Int, (DevirtClass1.BCoreChild.mk p).get = p + 20) ∧
    (∀ p : Int, (DevirtClass2.ACoreChild.mk p).get = p) ∧
    (∀ p : Int, (DevirtClass2.BCoreChild.mk p).get = p + 20) ∧
    (Devirt.AChild.mk 5).get = 5 ∧ (Devirt.BChild.mk 5).get = 25 :=
  ⟨fun _ => rfl, fun _ => rfl, fun _ => rfl, fun _ => rfl, fun _ => rfl, fun _ => rfl,
    rfl, rfl⟩

/-- C3: `nd_offset` computes the Horner-scheme fold: in the
two-dimensional case `nd_offset x1 e1 x2 = x1 + x2 * e1` (so
`nd_offset 2 5 3 = 17`), and for every higher arity it equals
`x1 + e1 * (x2 + e2 * (... + e_{n-1} * xn))`, the spec's associatively
composed Horner form. -/
theorem nd_offset_horner :
    (∀ (x1 e1 x2 : Nat) (rest : List (Nat × Nat)),
        nd_offset x1 e1 x2 rest = x1 + e1 * hornerSpec x2 rest) ∧
    (∀ x1 e1 x2 : Nat, nd_offset x1 e1 x2 [] = x1 + x2 * e1) ∧
    nd_offset 2 5 3 [] = 17 := by
  refine ⟨fun x1 e1 x2 rest => ?_, fun x1 e1 x2 => ?_, by decide⟩
  · unfold nd_offset
    rw [nd_offset_internal_horner]
  · simp [nd_offset, nd_offset_internal, Nat.mul_comm]

/-- C5: the claim says that for every concrete Core parent variant
holding payload `p`, the wrapper parent's `initialize()` builds a wrapper
child that stores the result of the wrapped parent's `create()` (first
variant) or `create_exact()` (forced-devirtualization variant),
`wrapped_get()` forwards to the stored child's `get()`, and consequently
`initialize()->wrapped_get()` returns the variant's expected offset
applied to `p`. The code diverges in the forced-devirtualization
variant: its `ActualWrapperParent<Core_>::initialize()` passes the
base-typed pointee `*my_core_parent` to `ActualWrapperChild<Core_>`'s
`const Core_&` constructor, which is ill-formed C++ for
`Core_ = ACoreParent` and `Core_ = BCoreParent`, so the claimed
behavior does not exist there. This theorem records the behavior the
source does have: the first variant in full; the forced variant's
wrapper child, which stores `create_exact()`'s result, forwards to the
stored child's `get()`, and yields the expected offsets when built
directly from a concrete parent; and the forced variant's wrapper parent
at its only well-formed instantiation, `Core_ = BaseCoreParent`, where
`initialize()` stores `create_exact()`'s result and
`initialize()->wrapped_get()` yields the expected offsets of the
dynamic parent type. -/
theorem wrapper_initialise_forwards :
    (∀ (Core : Type) (d : DevirtClass1.CoreDict Core)
        (wp : DevirtClass1.ActualWrapperParent Core),
        (wp.initialise d).my_core_child = d.create wp.my_core_parent) ∧
    (∀ (Core : Type) (wc : DevirtClass1.ActualWrapperChild Core),
        wc.wrapped_get = wc.my_core_child.get) ∧
    (∀ p : Int,
        ((DevirtClass1.ActualWrapperParent.mk
            (DevirtClass1.ACoreParent.mk p)).initialise
              DevirtClass1.aCoreDict).wrapped_get = p) ∧
    (∀ p : Int,
        ((DevirtClass1.ActualWrapperParent.mk
            (DevirtClass1.BCoreParent.mk p)).initialise
              DevirtClass1.bCoreDict).wrapped_get = p + 20) ∧
    (∀ (Core Child : Type) (d : DevirtClass2.CoreExactDict Core Child)
        (core_parent : Core),
        (DevirtClass2.ActualWrapperChild.ctor d core_parent).my_core_child =
          d.create_exact core_parent) ∧
    (∀ (Core Child : Type) (d : DevirtClass2.CoreExactDict Core Child)
        (wc : DevirtClass2.ActualWrapperChild Core Child),
        wc.wrapped_get d = d.childGet wc.my_core_child) ∧
    (∀ p : Int,
        (DevirtClass2.ActualWrapperChild.ctor DevirtClass2.aExactDict
            (DevirtClass2.ACoreParent.mk p)).wrapped_get
              DevirtClass2.aExactDict = p) ∧
    (∀ p : Int,
        (DevirtClass2.ActualWrapperChild.ctor DevirtClass2.bExactDict
            (DevirtClass2.BCoreParent.mk p)).wrapped_get
              DevirtClass2.bExactDict = p + 20) ∧
    (∀ bp : DevirtClass2.BaseCoreParent,
        ((DevirtClass2.ActualWrapperParent.mk bp :
            DevirtClass2.ActualWrapperParent
              DevirtClass2.BaseCoreParent)).initialise.my_core_child =
          bp.create_exact) ∧
    (∀ p : Int,
        (((DevirtClass2.ActualWrapperParent.mk
            (DevirtClass2.BaseCoreParent.a (DevirtClass2.ACoreParent.mk p)) :
              DevirtClass2.ActualWrapperParent
                DevirtClass2.BaseCoreParent)).initialise).wrapped_get
          DevirtClass2.baseExactDict = p) ∧
    (∀ q : Int,
        (((DevirtClass2.ActualWrapperParent.mk
            (DevirtClass2.BaseCoreParent.b (DevirtClass2.BCoreParent.mk q)) :
              DevirtClass2.ActualWrapperParent
                DevirtClass2.BaseCoreParent)).initialise).wrapped_get
          DevirtClass2.baseExactDict = q + 20) :=
  ⟨fun _ _ _ => rfl, fun _ _ => rfl, fun _ => rfl, fun _ => rfl,
    fun _ _ _ _ => rfl, fun _ _ _ _ => rfl, fun _ => rfl, fun _ => rfl,
    fun _ => rfl, fun _ => rfl, fun _ => rfl⟩

/-- C6: the claim says each driver returns the factory-then-accessor
result: `foo(AParent(p))` in `devirtualize.cpp` returns `p`; in both
variants of `devirtualize_class.cpp`, `foo(w)` returns
`w.initialize()->wrapped_get()` and `bar(base, abase, bbase)` returns
the sum of `foo` on the three wrappers built from its arguments, whose
last two addends are `p` (the payload of `abase`) and `q + 20` (for the
payload `q` of `bbase`). The code diverges in the forced-devirtualization
variant: its `bar` instantiates
`ActualWrapperParent<ACoreParent>::initialize()` and
`ActualWrapperParent<BCoreParent>::initialize()`, which are ill-formed
C++ (a `BaseCoreParent&` passed to a `const Core_&` constructor), so
that `bar` computes nothing. This theorem records the drivers the
source does have: `foo` of `devirtualize.cpp`; `foo` and `bar` of the
first variant (whose last two addends are `p` and `q + 20`); and `foo`
of the forced variant, which is factory-then-accessor and yields `p`
and `q + 20` through the variant's one well-formed wrapper
instantiation, `Core_ = BaseCoreParent`. -/
theorem driver_results :
    (∀ p : Int, Devirt.foo (Devirt.AParent.mk p) = p) ∧
    (∀ w : DevirtClass1.BaseWrapperParent,
        DevirtClass1.foo w = ((w.initialise ()).wrapped_get ())) ∧
    (∀ (base : DevirtClass1.BaseCoreParent) (p q : Int),
        DevirtClass1.bar base (DevirtClass1.ACoreParent.mk p)
            (DevirtClass1.BCoreParent.mk q) =
          DevirtClass1.foo ((DevirtClass1.ActualWrapperParent.mk base).toBase
              DevirtClass1.baseCoreDict) + p + (q + 20)) ∧
    (∀ w : DevirtClass2.BaseWrapperParent,
        DevirtClass2.foo w = ((w.initialise ()).wrapped_get ())) ∧
    (∀ p : Int,
        DevirtClass2.foo ((DevirtClass2.ActualWrapperParent.mk
            (DevirtClass2.BaseCoreParent.a (DevirtClass2.ACoreParent.mk p)) :
              DevirtClass2.ActualWrapperParent
                DevirtClass2.BaseCoreParent).toBase) = p) ∧
    (∀ q : Int,
        DevirtClass2.foo ((DevirtClass2.ActualWrapperParent.mk
            (DevirtClass2.BaseCoreParent.b (DevirtClass2.BCoreParent.mk q)) :
              DevirtClass2.ActualWrapperParent
                DevirtClass2.BaseCoreParent).toBase) = q + 20) :=
  ⟨fun _ => rfl, fun _ => rfl, fun _ _ _ => rfl, fun _ => rfl,
    fun _ => rfl, fun _ => rfl⟩

/-- C7: in the forced-devirtualization variant, `create()` and
`create_exact()` agree on every concrete parent: for every payload `p`,
`ACoreParent(p).create()` is exactly the upcast of
`ACoreParent(p).create_exact()` (which returns the most specific child
type, `ACoreChild`) and the two children's `get()` results are equal;
likewise for `BCoreParent` with `BCoreChild`; and for any parent accessed
through the `BaseCoreParent` interface, the non-virtual
`BaseCoreParent::create_exact()` returns exactly the result of the
virtual `create()`. -/
theorem create_exact_equiv_create :
    (∀ p : Int, (DevirtClass2.ACoreParent.mk p).create =
        DevirtClass2.BaseCoreChild.a (DevirtClass2.ACoreParent.mk p).create_exact) ∧
    (∀ p : Int, (DevirtClass2.ACoreParent.mk p).create.get =
        ((DevirtClass2.ACoreParent.mk p).create_exact).get) ∧
    (∀ p : Int, (DevirtClass2.BCoreParent.mk p).create =
        DevirtClass2.BaseCoreChild.b (DevirtClass2.BCoreParent.mk p).create_exact) ∧
    (∀ p : Int, (DevirtClass2.BCoreParent.mk p).create.get =
        ((DevirtClass2.BCoreParent.mk p).create_exact).get) ∧
    (∀ bp : DevirtClass2.BaseCoreParent, bp.create_exact = bp.create) :=
  ⟨fun _ => rfl, fun _ => rfl, fun _ => rfl, fun _ => rfl, fun _ => rfl⟩

/-- C8: every child's accessor is pure: the stateful embedding of `get()`
returns the receiver unchanged, its value component agrees with the pure
`get()`, and a second call on the post-state returns the same value. -/
theorem child_get_pure :
    (∀ p : Int, (Devirt.AChild.mk p).getSt.2 = Devirt.AChild.mk p ∧
        (Devirt.AChild.mk p).getSt.1 = (Devirt.AChild.mk p).get ∧
        ((Devirt.AChild.mk p).getSt.2).getSt.1 = (Devirt.AChild.mk p).getSt.1) ∧
    (∀ p : Int, (Devirt.BChild.mk p).getSt.2 = Devirt.BChild.mk p ∧
        (Devirt.BChild.mk p).getSt.1 = (Devirt.BChild.mk p).get ∧
        ((Devirt.BChild.mk p).getSt.2).getSt.1 = (Devirt.BChild.mk p).getSt.1) ∧
    (∀ p : Int, (DevirtClass1.ACoreChild.mk p).getSt.2 = DevirtClass1.ACoreChild.mk p ∧
        (DevirtClass1.ACoreChild.mk p).getSt.1 = (DevirtClass1.ACoreChild.mk p).get ∧
        ((DevirtClass1.ACoreChild.mk p).getSt.2).getSt.1 =
          (DevirtClass1.ACoreChild.mk p).getSt.1) ∧
    (∀ p : Int, (DevirtClass1.BCoreChild.mk p).getSt.2 = DevirtClass1.BCoreChild.mk p ∧
        (DevirtClass1.BCoreChild.mk p).getSt.1 = (DevirtClass1.BCoreChild.mk p).get ∧
        ((DevirtClass1.BCoreChild.mk p).getSt.2).getSt.1 =
          (DevirtClass1.BCoreChild.mk p).getSt.1) ∧
    (∀ p : Int, (DevirtClass2.ACoreChild.mk p).getSt.2 = DevirtClass2.ACoreChild.mk p ∧
        (DevirtClass2.ACoreChild.mk p).getSt.1 = (DevirtClass2.ACoreChild.mk p).get ∧
        ((DevirtClass2.ACoreChild.mk p).getSt.2).getSt.1 =
          (DevirtClass2.ACoreChild.mk p).getSt.1) ∧
    (∀ p : Int, (DevirtClass2.BCoreChild.mk p).getSt.2 = DevirtClass2.BCoreChild.mk p ∧
        (DevirtClass2.BCoreChild.mk p).getSt.1 = (DevirtClass2.BCoreChild.mk p).get ∧
        ((DevirtClass2.BCoreChild.mk p).getSt.2).getSt.1 =
          (DevirtClass2.BCoreChild.mk p).getSt.1) :=
  ⟨fun _ => ⟨rfl, rfl, rfl⟩, fun _ => ⟨rfl, rfl, rfl⟩, fun _ => ⟨rfl, rfl, rfl⟩,
    fun _ => ⟨rfl, rfl, rfl⟩, fun _ => ⟨rfl, rfl, rfl⟩, fun _ => ⟨rfl, rfl, rfl⟩⟩

/-- Conversion of the arguments happens before any arithmetic: the
entry-wise-converting embedding equals the reference formulation that
pre-converts every argument and then folds modulo `2 ^ w`. -/
lemma nd_offset_internal_w_u (w : Nat) (extent pos : Int) (rest : List (Int × Int)) :
    nd_offset_internal_w w extent pos rest =
      nd_offset_internal_u (2 ^ w) (toUnsigned w extent) (toUnsigned w pos)
        (rest.map fun q => (toUnsigned w q.1, toUnsigned w q.2)) := by
  induction rest generalizing extent pos with
  | nil => rfl
  | cons head rest ih =>
      obtain ⟨e2, x2⟩ := head
      simp only [nd_offset_internal_w, nd_offset_internal_u, List.map, ih]

/-- C10: `nd_offset` at a `w`-bit unsigned `Size_` converts every
(possibly signed) coordinate and extent argument to `Size_` before any
arithmetic, and performs every addition and multiplication modulo
`2 ^ w`; in particular a negative argument passed to
`nd_offset<std::size_t>` (as `sum` does) is reinterpreted as a large
unsigned value — `-1` becomes `2 ^ 64 - 1` — rather than reported as an
error. -/
theorem nd_offset_sz_modular :
    (∀ (w : Nat) (x1 e1 x2 : Int) (rest : List (Int × Int)),
        nd_offset_w w x1 e1 x2 rest =
          nd_offset_u (2 ^ w) (toUnsigned w x1) (toUnsigned w e1) (toUnsigned w x2)
            (rest.map fun q => (toUnsigned w q.1, toUnsigned w q.2))) ∧
    toUnsigned 64 (-1) = 2 ^ 64 - 1 ∧
    nd_offset_w 64 (-1) 5 0 [] = 2 ^ 64 - 1 := by
  refine ⟨fun w x1 e1 x2 rest => ?_, ?_, ?_⟩
  · unfold nd_offset_w nd_offset_u
    rw [nd_offset_internal_w_u]
  · rfl
  · rfl

/-- Converting a nonnegative integer to `size_t` cannot grow it. -/
lemma toUnsigned_le_toNat (i : Int) (h0 : 0 ≤ i) : toUnsigned 64 i ≤ i.toNat := by
  unfold toUnsigned
  have h : (2 : Int) ^ 64 = 18446744073709551616 := by norm_num
  rw [h]
  omega

/-- Converting a nonnegative integer below `2 ^ 64` to `size_t` is exact. -/
lemma toUnsigned_eq_toNat (i : Int) (h0 : 0 ≤ i) (h : i < 2 ^ 64) :
    toUnsigned 64 i = i.toNat := by
  unfold toUnsigned
  rw [Int.emod_eq_of_lt h0 h]

/-- The `size_t` index `sum` computes for row `r` of column `c` never
exceeds the mathematical index `c + NC * r`, wraparound included. -/
lemma nd_offset_w_index_le (c NC r : Int) (hc0 : 0 ≤ c) (hNC0 : 0 ≤ NC) (hr0 : 0 ≤ r) :
    nd_offset_w 64 c NC r [] ≤ c.toNat + NC.toNat * r.toNat := by
  simp only [nd_offset_w, nd_offset_internal_w]
  have h1 := toUnsigned_le_toNat c hc0
  have h2 := toUnsigned_le_toNat NC hNC0
  have h3 := toUnsigned_le_toNat r hr0
  have h4 : toUnsigned 64 NC * toUnsigned 64 r ≤ NC.toNat * r.toNat :=
    Nat.mul_le_mul h2 h3
  have h5 := Nat.mod_le (toUnsigned 64 NC * toUnsigned 64 r) (2 ^ 64)
  have h6 := Nat.mod_le
    (toUnsigned 64 c + toUnsigned 64 NC * toUnsigned 64 r % 2 ^ 64) (2 ^ 64)
  omega

/-- Within the `int` value range no wraparound occurs: the `size_t` index
`sum` computes for row `r` of column `c` is exactly `c + NC * r`. -/
lemma nd_offset_w_index_eq (c NC r : Int) (hc0 : 0 ≤ c) (hNC0 : 0 ≤ NC) (hr0 : 0 ≤ r)
    (hc : c < 2 ^ 31) (hNC : NC < 2 ^ 31) (hr : r < 2 ^ 31) :
    nd_offset_w 64 c NC r [] = c.toNat + NC.toNat * r.toNat := by
  simp only [nd_offset_w, nd_offset_internal_w]
  rw [toUnsigned_eq_toNat c hc0 (by omega), toUnsigned_eq_toNat NC hNC0 (by omega),
    toUnsigned_eq_toNat r hr0 (by omega)]
  have hmul : NC.toNat * r.toNat ≤ 2 ^ 31 * 2 ^ 31 :=
    Nat.mul_le_mul (by omega) (by omega)
  rw [Nat.mod_eq_of_lt (by omega), Nat.mod_eq_of_lt (by omega)]

/-- An in-bounds access: `c + NC * r` is below the total element count
`NR * NC` when `c < NC` and `r < NR`. -/
lemma index_lt_total (cn NCn rn NRn : Nat) (hc : cn < NCn) (hr : rn + 1 ≤ NRn) :
    cn + NCn * rn < NRn * NCn :=
  calc cn + NCn * rn < NCn + NCn * rn := by omega
    _ = NCn * (rn + 1) := by ring
    _ ≤ NCn * NRn := Nat.mul_le_mul (Nat.le_refl _) hr
    _ = NRn * NCn := Nat.mul_comm _ _

/-- The loop of `sum` never reads out of bounds when `0 ≤ c < NC` and the
matrix has at least `NR * NC` elements, so it always produces a value. -/
lemma sumLoop_isSome {α : Type} [Add α] (mat : List α) (NR NC c : Int)
    (hc0 : 0 ≤ c) (hcNC : c < NC)
    (hlen : NR.toNat * NC.toNat ≤ mat.length) :
    ∀ (fuel : Nat) (val : α) (r : Int), 0 ≤ r → fuel = (NR - r).toNat →
      ∃ v, sumLoop mat NR NC c fuel val r = some v := by
  intro fuel
  induction fuel with
  | zero =>
      intro val r hr0 hfuel
      have hNRr : ¬ r < NR := by omega
      exact ⟨val, by simp [sumLoop, hNRr]⟩
  | succ fuel ih =>
      intro val r hr0 hfuel
      have hrNR : r < NR := by omega
      have hidx : nd_offset_w 64 c NC r [] < mat.length := by
        have h1 := nd_offset_w_index_le c NC r hc0 (by omega) hr0
        have h2 : c.toNat + NC.toNat * r.toNat < NR.toNat * NC.toNat :=
          index_lt_total c.toNat NC.toNat r.toNat NR.toNat (by omega) (by omega)
        omega
      obtain ⟨v, hv⟩ := ih (val + mat[nd_offset_w 64 c NC r []]) (r + 1)
        (by omega) (by omega)
      refine ⟨v, ?_⟩
      simp only [sumLoop, if_pos hrNR, List.getElem?_eq_getElem hidx]
      exact hv

/-- With in-bounds arguments and within the `int` range, the loop of
`sum` accumulates exactly the elements `mat[c + r * NC]` for the rows `r`
it still has to visit, left to right. -/
lemma sumLoop_foldl {α : Type} [Add α] [Zero α] (mat : List α) (NR NC c : Int)
    (hc0 : 0 ≤ c) (hcNC : c < NC) (hNR : NR < 2 ^ 31) (hNC : NC < 2 ^ 31)
    (hlen : NR.toNat * NC.toNat ≤ mat.length) :
    ∀ (fuel : Nat) (val : α) (r : Int), 0 ≤ r → fuel = (NR - r).toNat →
      sumLoop mat NR NC c fuel val r =
        some (List.foldl (fun acc rr => acc + mat.getD (c.toNat + rr * NC.toNat) 0) val
          (List.range' r.toNat (NR.toNat - r.toNat))) := by
  intro fuel
  induction fuel with
  | zero =>
      intro val r hr0 hfuel
      have hNRr : ¬ r < NR := by omega
      have hn : NR.toNat - r.toNat = 0 := by omega
      simp [sumLoop, hNRr, hn]
  | succ fuel ih =>
      intro val r hr0 hfuel
      have hrNR : r < NR := by omega
      have hieq : nd_offset_w 64 c NC r [] = c.toNat + NC.toNat * r.toNat :=
        nd_offset_w_index_eq c NC r hc0 (by omega) hr0 (by omega) hNC (by omega)
      have hlt : c.toNat + NC.toNat * r.toNat < mat.length := by
        have h2 : c.toNat + NC.toNat * r.toNat < NR.toNat * NC.toNat :=
          index_lt_total c.toNat NC.toNat r.toNat NR.toNat (by omega) (by omega)
        omega
      have hn : NR.toNat - r.toNat = (NR.toNat - (r.toNat + 1)) + 1 := by omega
      rw [hn, List.range'_succ]
      simp only [sumLoop, if_pos hrNR, hieq, List.getElem?_eq_getElem hlt]
      rw [ih (val + mat[c.toNat + NC.toNat * r.toNat]) (r + 1) (by omega) (by omega)]
      have hr1 : (r + 1).toNat = r.toNat + 1 := by omega
      rw [hr1, List.foldl_cons]
      have hgetD : mat.getD (c.toNat + r.toNat * NC.toNat) 0 =
          mat[c.toNat + NC.toNat * r.toNat] := by
        rw [Nat.mul_comm]
        exact List.getD_eq_getElem mat 0 hlt
      rw [hgetD]

/-- C4: for every matrix of at least `NR * NC` elements and in-bounds
arguments (`0 ≤ c < NC`, `0 ≤ r0`, all within the `int` value range),
`sum mat NR NC r0 c` is the left-to-right accumulation, starting from
`0`, of `mat[c + r * NC]` over the rows `r` in `[r0, NR)`; when
`r0 ≥ NR` the row range is empty and the result is `0`. -/
theorem sum_eq_column_sum {α : Type} [Add α] [Zero α] (mat : List α) (NR NC r0 c : Int)
    (hc0 : 0 ≤ c) (hcNC : c < NC) (hr0 : 0 ≤ r0)
    (hNR : NR < 2 ^ 31) (hNC : NC < 2 ^ 31)
    (hlen : NR.toNat * NC.toNat ≤ mat.length) :
    sum mat NR NC r0 c =
      some (colSum mat NC.toNat c.toNat (List.range' r0.toNat (NR.toNat - r0.toNat))) := by
  unfold sum colSum
  exact sumLoop_foldl mat NR NC c hc0 hcNC hNR hNC hlen _ 0 r0 hr0 rfl

/-- C4 witness: on the 3×2 integer matrix `[10, 20, 30, 40, 50, 60]`,
summing column `0` from row `1` matches the mathematical column sum,
which evaluates to `30 + 50 = 80`. -/
theorem sum_eq_column_sum_witness :
    NdOffset.sum ([10, 20, 30, 40, 50, 60] : List Int) 3 2 1 0 =
      some (SpecSide.colSum ([10, 20, 30, 40, 50, 60] : List Int) 2 0 (List.range' 1 2)) ∧
    SpecSide.colSum ([10, 20, 30, 40, 50, 60] : List Int) 2 0 (List.range' 1 2) = 80 := by
  constructor
  · exact sum_eq_column_sum ([10, 20, 30, 40, 50, 60] : List Int) 3 2 1 0
      (by decide) (by decide) (by decide) (by decide) (by decide) (by decide)
  · decide

/-- C9: under the preconditions `0 ≤ c < NC`, `0 ≤ r0` and a matrix of at
least `NR * NC` elements, every access the loop of `sum` performs is in
bounds, so the total embedding (whose indexing returns an `Option`) never
reaches the out-of-bounds branch and always returns a value. -/
theorem sum_accesses_in_bounds {α : Type} [Add α] [Zero α] (mat : List α)
    (NR NC r0 c : Int) (hc0 : 0 ≤ c) (hcNC : c < NC) (hr0 : 0 ≤ r0)
    (hlen : NR.toNat * NC.toNat ≤ mat.length) :
    ∃ v, sum mat NR NC r0 c = some v := by
  unfold sum
  exact sumLoop_isSome mat NR NC c hc0 hcNC hlen _ 0 r0 hr0 rfl

/-- C9 witness: on the 3×2 integer matrix `[10, 20, 30, 40, 50, 60]`,
summing column `1` from row `0` produces a value. -/
theorem sum_accesses_in_bounds_witness :
    ∃ v, NdOffset.sum ([10, 20, 30, 40, 50, 60] : List Int) 3 2 0 1 = some v :=
  sum_accesses_in_bounds ([10, 20, 30, 40, 50, 60] : List Int) 3 2 0 1
    (by decide) (by decide) (by decide) (by decide)

end Claims
